import Mathlib

/-!
Shallow embedding of the sediFoam `softParticle` data holder
(src/lammpsFoam/softParticle.H) and of the tracking, migration and
history-accumulation behaviour that the header declares.  Scalars are
modelled as rationals; the mathematical constant pi is passed as an
explicit parameter `piV` wherever the source uses
`constant::mathematical::pi`, so that all definitions stay executable.
Operations whose bodies live in source files that are not part of the
repository snapshot (softParticle.C, softParticleIO.C, the cloud code)
are modelled from the specification; each such definition says so in
its doc comment.
-/

namespace SediFoam

/-- A three-component vector, the embedding of OpenFOAM `vector`. -/
@[ext]
structure Vec3 where
  x : ℚ
  y : ℚ
  z : ℚ
deriving DecidableEq, Repr

/-- The zero vector. -/
def Vec3.zero : Vec3 := ⟨0, 0, 0⟩

instance : Add Vec3 := ⟨fun a b => ⟨a.x + b.x, a.y + b.y, a.z + b.z⟩⟩

/-- Componentwise scaling of a vector by a scalar. -/
def scale (a : ℚ) (v : Vec3) : Vec3 := ⟨a * v.x, a * v.y, a * v.z⟩

/-- Sum of a list of vectors. -/
def vecSum (l : List Vec3) : Vec3 := l.foldr (· + ·) Vec3.zero

/-- A 3x3 tensor, the embedding of OpenFOAM `tensor`. -/
structure Tensor3 where
  xx : ℚ
  xy : ℚ
  xz : ℚ
  yx : ℚ
  yy : ℚ
  yz : ℚ
  zx : ℚ
  zy : ℚ
  zz : ℚ
deriving DecidableEq, Repr

/-- Application of a tensor to a vector (the OpenFOAM inner product
of a tensor with a vector). -/
def transformVec (T : Tensor3) (v : Vec3) : Vec3 :=
  ⟨T.xx * v.x + T.xy * v.y + T.xz * v.z,
   T.yx * v.x + T.yy * v.y + T.yz * v.z,
   T.zx * v.x + T.zy * v.y + T.zz * v.z⟩

/-- The particle record: the fields of class `softParticle`
(src/lammpsFoam/softParticle.H lines 57-107) together with the
position carried by the `particle` base class. -/
structure SoftParticle where
  position : Vec3
  d : ℚ
  mass : ℚ
  U : Vec3
  moveU : Vec3
  ensembleU : Vec3
  positionOld : Vec3
  UOld : Vec3
  tag : ℤ
  lmpCpuId : ℤ
  type : ℤ
  density : ℚ
  n0 : ℚ
  sumDeltaFb : Vec3
deriving DecidableEq, Repr

/-- Embedding of `template<> inline bool contiguous<softParticle>()`
(softParticle.H lines 341-345): the particle record is declared
contiguous, i.e. a fixed-layout fixed-size structure. -/
def contiguousSoftParticle : Bool := true

/-- Embedding of `clone()` (softParticle.H lines 163-167): copy
construction of the whole record. -/
def clone (p : SoftParticle) : SoftParticle := p

/-- Embedding of the mutable accessor `d()` (softParticle.H lines
209-213) used as a setter: stores the value with no validity check. -/
def setD (p : SoftParticle) (v : ℚ) : SoftParticle := { p with d := v }

/-- Embedding of the mutable accessor `m()` (lines 215-219). -/
def setM (p : SoftParticle) (v : ℚ) : SoftParticle := { p with mass := v }

/-- Embedding of the mutable accessor `U()` (lines 221-225). -/
def setU (p : SoftParticle) (v : Vec3) : SoftParticle := { p with U := v }

/-- Embedding of the mutable accessor `moveU()` (lines 227-231). -/
def setMoveU (p : SoftParticle) (v : Vec3) : SoftParticle := { p with moveU := v }

/-- Embedding of the mutable accessor `ensembleU()` (lines 233-237). -/
def setEnsembleU (p : SoftParticle) (v : Vec3) : SoftParticle := { p with ensembleU := v }

/-- Embedding of the mutable accessor `positionOld()` (lines 239-243). -/
def setPositionOld (p : SoftParticle) (v : Vec3) : SoftParticle := { p with positionOld := v }

/-- Embedding of the mutable accessor `UOld()` (lines 245-249). -/
def setUOld (p : SoftParticle) (v : Vec3) : SoftParticle := { p with UOld := v }

/-- Embedding of the mutable accessor `ptag()` (lines 251-255). -/
def setPtag (p : SoftParticle) (v : ℤ) : SoftParticle := { p with tag := v }

/-- Embedding of the mutable accessor `pLmpCpuId()` (lines 257-261). -/
def setPLmpCpuId (p : SoftParticle) (v : ℤ) : SoftParticle := { p with lmpCpuId := v }

/-- Embedding of the mutable accessor `ptype()` (lines 263-267). -/
def setPtype (p : SoftParticle) (v : ℤ) : SoftParticle := { p with type := v }

/-- Embedding of the mutable accessor `n0()` (lines 275-279). -/
def setN0 (p : SoftParticle) (v : ℚ) : SoftParticle := { p with n0 := v }

/-- Embedding of the mutable accessor `sumDeltaFb()` (lines 281-285). -/
def setSumDeltaFb (p : SoftParticle) (v : Vec3) : SoftParticle := { p with sumDeltaFb := v }

/-- Embedding of `Vol()` (softParticle.H lines 269-273):
`constant::mathematical::pi*d_*d_*d_/6.0`, with pi passed explicitly. -/
def Vol (piV : ℚ) (p : SoftParticle) : ℚ := piV * p.d * p.d * p.d / 6

/-- Modelled from the spec: `calculateDerived()` (softParticle.H line
198; the body in softParticle.C is not in the snapshot).  The mass is
derived from the diameter and the density via the sphere volume:
`mass == density * (pi/6) * diameter^3`. -/
def calculateDerived (piV : ℚ) (p : SoftParticle) : SoftParticle :=
  { p with mass := p.density * Vol piV p }

/-- One token of a serialized particle record: a scalar or a label. -/
inductive Token where
  | s (v : ℚ)
  | l (v : ℤ)
deriving DecidableEq, Repr

/-- Modelled from the spec: the outbound half of the
DomainMigrationCodec (the friend `operator<<` of softParticle.H line
337, whose body in softParticleIO.C is not in the snapshot).  Writes
every field of the record in a fixed order. -/
def encode (p : SoftParticle) : List Token :=
  [Token.s p.position.x, Token.s p.position.y, Token.s p.position.z,
   Token.s p.d, Token.s p.mass,
   Token.s p.U.x, Token.s p.U.y, Token.s p.U.z,
   Token.s p.moveU.x, Token.s p.moveU.y, Token.s p.moveU.z,
   Token.s p.ensembleU.x, Token.s p.ensembleU.y, Token.s p.ensembleU.z,
   Token.s p.positionOld.x, Token.s p.positionOld.y, Token.s p.positionOld.z,
   Token.s p.UOld.x, Token.s p.UOld.y, Token.s p.UOld.z,
   Token.l p.tag, Token.l p.lmpCpuId, Token.l p.type,
   Token.s p.density, Token.s p.n0,
   Token.s p.sumDeltaFb.x, Token.s p.sumDeltaFb.y, Token.s p.sumDeltaFb.z]

/-- Modelled from the spec: the inbound half of the
DomainMigrationCodec (the Istream constructor of softParticle.H lines
155-161, whose body in softParticleIO.C is not in the snapshot).
Reads the fields back in the same fixed order; a malformed record is
rejected. -/
def decode (r : List Token) : Option SoftParticle :=
  match r with
  | [Token.s px, Token.s py, Token.s pz,
     Token.s dv, Token.s mv,
     Token.s ux, Token.s uy, Token.s uz,
     Token.s mx, Token.s my, Token.s mz,
     Token.s ex, Token.s ey, Token.s ez,
     Token.s ox, Token.s oy, Token.s oz,
     Token.s vx, Token.s vy, Token.s vz,
     Token.l tg, Token.l cp, Token.l ty,
     Token.s rho, Token.s nv,
     Token.s fx, Token.s fy, Token.s fz] =>
      some ⟨⟨px, py, pz⟩, dv, mv, ⟨ux, uy, uz⟩, ⟨mx, my, mz⟩,
            ⟨ex, ey, ez⟩, ⟨ox, oy, oz⟩, ⟨vx, vy, vz⟩,
            tg, cp, ty, rho, nv, ⟨fx, fy, fz⟩⟩
  | _ => none

/-- Modelled from the spec: `transformProperties(const tensor& T)`
(softParticle.H line 318; the body in softParticle.C is not in the
snapshot).  A coordinate transform rotates every velocity-bearing
field — velocityExternal (U), velocityForAdvection (moveU),
velocityPrevious (UOld) and historyForceSum (sumDeltaFb) — and leaves
the scalar fields untouched. -/
def transformProperties (T : Tensor3) (p : SoftParticle) : SoftParticle :=
  { p with U := transformVec T p.U,
           moveU := transformVec T p.moveU,
           UOld := transformVec T p.UOld,
           sumDeltaFb := transformVec T p.sumDeltaFb }

/-- Modelled from the spec: `transformProperties(const vector&
separation)` (softParticle.H line 322; the body in softParticle.C is
not in the snapshot).  A translational separation shifts the position;
velocities and scalar fields are untouched. -/
def transformPropertiesSep (sep : Vec3) (p : SoftParticle) : SoftParticle :=
  { p with position := p.position + sep }

/-- Modelled from the spec: one completed step of the history-force
accumulation (EnsembleCoupler; the cloud code that updates `n0_` and
`sumDeltaFb_` is not in the snapshot).  Each step adds its
contribution to the running sum and advances the step count by one;
nothing is recomputed from scratch or reset. -/
def historyStep (contrib : Vec3) (p : SoftParticle) : SoftParticle :=
  { p with n0 := p.n0 + 1, sumDeltaFb := p.sumDeltaFb + contrib }

/-- The history accumulation over a whole list of per-step
contributions, applied in order. -/
def historySteps (cs : List Vec3) (p : SoftParticle) : SoftParticle :=
  cs.foldl (fun q c => historyStep c q) p

/-- Modelled from the spec: the construct-from-components constructor
(softParticle.H lines 142-153; the body in softParticle.C is not in
the snapshot).  Per the error-handling design, a non-positive diameter
or density arriving from the external feed is fatal at construction
time: the particle is rejected before it enters tracking.  The mass is
derived from the diameter and the density, and all previous-state and
history fields are zero-initialized. -/
def mkSoftParticle (piV : ℚ) (position : Vec3) (_celli : ℤ) (d : ℚ)
    (U : Vec3) (rhos : ℚ) (tag lmpCpuId type : ℤ) : Option SoftParticle :=
  if d ≤ 0 ∨ rhos ≤ 0 then none
  else some
    { position := position, d := d, mass := rhos * (piV * d * d * d / 6),
      U := U, moveU := U, ensembleU := U,
      positionOld := Vec3.zero, UOld := Vec3.zero,
      tag := tag, lmpCpuId := lmpCpuId, type := type,
      density := rhos, n0 := 0, sumDeltaFb := Vec3.zero }

/-- Modelled from the spec: the face-crossing loop of the
MotionIntegrator (`move`, softParticle.H line 204; the body in
softParticle.C is not in the snapshot).  `hits` lists the track
fractions at which the remaining segment meets a cell face; at each
hit the loop commits the partial displacement up to that face, and
when no further face is hit it commits the remaining displacement and
the track fraction reaches 1.  Returns the committed partial
displacements and the final track fraction. -/
def moveLoop (disp : Vec3) : List ℚ → ℚ → List Vec3 × ℚ
  | [], f0 => ([scale (1 - f0) disp], 1)
  | f :: fs, f0 =>
      let r := moveLoop disp fs f
      (scale (f - f0) disp :: r.1, r.2)

/-- The outcome of one step of the motion integrator. -/
structure MoveResult where
  particle : SoftParticle
  committed : List Vec3
  trackFraction : ℚ
deriving DecidableEq, Repr

/-- Modelled from the spec: `move` (softParticle.H line 204; the body
in softParticle.C is not in the snapshot) for a non-migrating particle
confined to one partition.  The particle advances by the committed
partial displacements, and at completion of the step the bookkeeping
fields positionOld and UOld are updated exactly once from the
start-of-step state. -/
def move (p : SoftParticle) (disp : Vec3) (hits : List ℚ) : MoveResult :=
  let r := moveLoop disp hits 0
  let q : SoftParticle :=
    { p with position := p.position + vecSum r.1,
             positionOld := p.position, UOld := p.U }
  { particle := q, committed := r.1, trackFraction := r.2 }

/-- A concrete valid particle used to instantiate theorems. -/
def sampleParticle : SoftParticle :=
  ⟨⟨0, 0, 0⟩, 1 / 500, 1, ⟨1, 0, 0⟩, ⟨1, 0, 0⟩, ⟨0, 0, 0⟩,
   ⟨0, 0, 0⟩, ⟨0, 0, 0⟩, 7, 0, 1, 1000, 0, ⟨0, 0, 0⟩⟩

/-- The concrete particle produced by `mkSoftParticle 6 Vec3.zero 0 1
(1,0,0) 1 7 0 1`, used to instantiate the constructor theorems. -/
def sampleConstructed : SoftParticle :=
  ⟨Vec3.zero, 1, 1, ⟨1, 0, 0⟩, ⟨1, 0, 0⟩, ⟨1, 0, 0⟩,
   Vec3.zero, Vec3.zero, 7, 0, 1, 1, 0, Vec3.zero⟩

/- ------------------------------------------------------------------
Helper lemmas about the vector algebra.
------------------------------------------------------------------ -/

@[simp]
theorem Vec3.add_x (a b : Vec3) : (a + b).x = a.x + b.x := rfl

@[simp]
theorem Vec3.add_y (a b : Vec3) : (a + b).y = a.y + b.y := rfl

@[simp]
theorem Vec3.add_z (a b : Vec3) : (a + b).z = a.z + b.z := rfl

@[simp]
theorem Vec3.zero_x : Vec3.zero.x = 0 := rfl

@[simp]
theorem Vec3.zero_y : Vec3.zero.y = 0 := rfl

@[simp]
theorem Vec3.zero_z : Vec3.zero.z = 0 := rfl

@[simp]
theorem Vec3.add_zero (v : Vec3) : v + Vec3.zero = v := by
  ext <;> simp

theorem Vec3.add_assoc (a b c : Vec3) : a + b + c = a + (b + c) := by
  ext <;> simp <;> ring

theorem scale_one (v : Vec3) : scale 1 v = v := by
  ext <;> simp [scale]

theorem scale_zero_vec (a : ℚ) : scale a Vec3.zero = Vec3.zero := by
  ext <;> simp [scale]

theorem scale_add_scale (a b : ℚ) (v : Vec3) :
    scale a v + scale b v = scale (a + b) v := by
  ext <;> simp [scale] <;> ring

theorem vecSum_cons (v : Vec3) (l : List Vec3) :
    vecSum (v :: l) = v + vecSum l := rfl

theorem moveLoop_spec (disp : Vec3) (fs : List ℚ) (f0 : ℚ) :
    vecSum (moveLoop disp fs f0).1 = scale (1 - f0) disp ∧
    (moveLoop disp fs f0).2 = 1 := by
  induction fs generalizing f0 with
  | nil => simp [moveLoop, vecSum]
  | cons f fs ih =>
      obtain ⟨h1, h2⟩ := ih f
      refine ⟨?_, by simpa [moveLoop] using h2⟩
      have : vecSum (moveLoop disp (f :: fs) f0).1
          = scale (f - f0) disp + vecSum (moveLoop disp fs f).1 := by
        simp [moveLoop, vecSum_cons]
      rw [this, h1, scale_add_scale]
      have harith : f - f0 + (1 - f) = 1 - f0 := by ring
      rw [harith]

theorem historySteps_spec (cs : List Vec3) (p : SoftParticle) :
    (historySteps cs p).n0 = p.n0 + cs.length ∧
    (historySteps cs p).sumDeltaFb = p.sumDeltaFb + vecSum cs := by
  induction cs generalizing p with
  | nil => simp [historySteps, vecSum]
  | cons c cs ih =>
      obtain ⟨h1, h2⟩ := ih (historyStep c p)
      have hstep : historySteps (c :: cs) p = historySteps cs (historyStep c p) := rfl
      constructor
      · rw [hstep, h1]
        simp only [historyStep, List.length_cons]
        push_cast
        ring
      · rw [hstep, h2, vecSum_cons, ← Vec3.add_assoc]
        rfl

/- ------------------------------------------------------------------
Claim theorems.
------------------------------------------------------------------ -/

/-- Claim C1: decoding the record produced by encoding a particle
yields the particle back, field for field, including the history
accumulators. -/
theorem decode_encode_roundTrip (p : SoftParticle) : decode (encode p) = some p := rfl

/-- Claim C2: after the derived quantities are computed, the mass of a
particle with positive diameter and density equals
density * (pi/6) * diameter^3, exactly in the rational arithmetic of
the embedding. -/
theorem calculateDerived_mass (piV : ℚ) (p : SoftParticle)
    (_hd : 0 < p.d) (_hrho : 0 < p.density) :
    (calculateDerived piV p).mass = p.density * (piV / 6) * p.d ^ 3 := by
  simp [calculateDerived, Vol]
  ring

/-- Witness for claim C2 at the concrete sample particle. -/
theorem calculateDerived_mass_witness :
    (calculateDerived (22 / 7) sampleParticle).mass
      = sampleParticle.density * ((22 / 7) / 6) * sampleParticle.d ^ 3 :=
  calculateDerived_mass (22 / 7) sampleParticle (by norm_num [sampleParticle])
    (by norm_num [sampleParticle])

/-- Claim C3: the particle record is declared contiguous, so bulk
transfer can treat a collection of records as flat binary blocks. -/
theorem contiguousSoftParticle_true : contiguousSoftParticle = true := rfl

/-- Claim C4: a rotation transform rotates every velocity-bearing
field (U, moveU, UOld, sumDeltaFb) and leaves the scalar fields
(diameter, mass, density) unchanged; a translational-separation
transform also leaves the scalar fields untouched. -/
theorem transformProperties_spec (T : Tensor3) (sep : Vec3) (p : SoftParticle) :
    (transformProperties T p).U = transformVec T p.U ∧
    (transformProperties T p).moveU = transformVec T p.moveU ∧
    (transformProperties T p).UOld = transformVec T p.UOld ∧
    (transformProperties T p).sumDeltaFb = transformVec T p.sumDeltaFb ∧
    (transformProperties T p).d = p.d ∧
    (transformProperties T p).mass = p.mass ∧
    (transformProperties T p).density = p.density ∧
    (transformPropertiesSep sep p).d = p.d ∧
    (transformPropertiesSep sep p).mass = p.mass ∧
    (transformPropertiesSep sep p).density = p.density :=
  ⟨rfl, rfl, rfl, rfl, rfl, rfl, rfl, rfl, rfl, rfl⟩

/-- Claim C5: over a surviving particle, after N completed steps of
the history accumulation, historyStepCount equals its value before
plus N (hence it is monotonically non-decreasing), and historyForceSum
is only ever added to — it equals its value before plus the sum of the
per-step contributions, never being reset. -/
theorem history_monotone (cs : List Vec3) (p : SoftParticle) :
    (historySteps cs p).n0 = p.n0 + cs.length ∧
    p.n0 ≤ (historySteps cs p).n0 ∧
    (historySteps cs p).sumDeltaFb = p.sumDeltaFb + vecSum cs := by
  obtain ⟨h1, h2⟩ := historySteps_spec cs p
  refine ⟨h1, ?_, h2⟩
  rw [h1]
  have : (0 : ℚ) ≤ (cs.length : ℚ) := by positivity
  linarith

/-- Claim C6, counterexample: the invariant `diameter > 0` does not
hold at all times for every tracked particle, because the mutable
accessor `d()` stores any value with no validity check: the valid
sample particle, mutated through the accessor with value -1, is left
with a non-positive diameter while still tracked. -/
theorem invariant_violated_by_accessor :
    0 < sampleParticle.d ∧ 0 < sampleParticle.mass ∧ 0 < sampleParticle.density ∧
    ¬ (0 < (setD sampleParticle (-1)).d) := by
  refine ⟨by norm_num [sampleParticle], by norm_num [sampleParticle],
    by norm_num [sampleParticle], ?_⟩
  norm_num [setD, sampleParticle]

/-- Claim C6, amended: construction from components fails exactly when
the diameter or the density is non-positive, and every particle that
construction does produce satisfies `diameter > 0`, `mass > 0` and
`density > 0` at construction time.  (The invariant can later be
broken through the unchecked mutable accessors.) -/
theorem mkSoftParticle_rejects_nonpositive (piV : ℚ) (pos : Vec3) (celli : ℤ)
    (d : ℚ) (U : Vec3) (rhos : ℚ) (tag cpu ty : ℤ) (hpi : 0 < piV) :
    (mkSoftParticle piV pos celli d U rhos tag cpu ty = none ↔ d ≤ 0 ∨ rhos ≤ 0) ∧
    ∀ q, mkSoftParticle piV pos celli d U rhos tag cpu ty = some q →
      0 < q.d ∧ 0 < q.mass ∧ 0 < q.density := by
  by_cases h : d ≤ 0 ∨ rhos ≤ 0
  · simp [mkSoftParticle, h]
  · push_neg at h
    obtain ⟨hd, hrho⟩ := h
    have hcond : ¬ (d ≤ 0 ∨ rhos ≤ 0) := by
      push_neg
      exact ⟨hd, hrho⟩
    constructor
    · simp [mkSoftParticle, hcond]
    · intro q hq
      have hmass : 0 < rhos * (piV * d * d * d / 6) :=
        mul_pos hrho
          (div_pos (mul_pos (mul_pos (mul_pos hpi hd) hd) hd) (by norm_num))
      unfold mkSoftParticle at hq
      rw [if_neg hcond] at hq
      injection hq with h2
      rw [← h2]
      exact ⟨hd, hmass, hrho⟩

/-- Witness for the amended claim C6 at concrete inputs. -/
theorem mkSoftParticle_rejects_nonpositive_witness :
    (mkSoftParticle 6 Vec3.zero 0 (-1) ⟨1, 0, 0⟩ 1 7 0 1 = none ↔
      (-1 : ℚ) ≤ 0 ∨ (1 : ℚ) ≤ 0) ∧
    ∀ q, mkSoftParticle 6 Vec3.zero 0 (-1) ⟨1, 0, 0⟩ 1 7 0 1 = some q →
      0 < q.d ∧ 0 < q.mass ∧ 0 < q.density :=
  mkSoftParticle_rejects_nonpositive 6 Vec3.zero 0 (-1) ⟨1, 0, 0⟩ 1 7 0 1
    (by norm_num)

/-- Claim C7: every fresh particle produced by the
construct-from-components constructor has its previous-state and
history fields — positionOld, UOld, historyStepCount and
historyForceSum — zero-initialized. -/
theorem mkSoftParticle_zero_history (piV : ℚ) (pos : Vec3) (celli : ℤ)
    (d : ℚ) (U : Vec3) (rhos : ℚ) (tag cpu ty : ℤ) (q : SoftParticle)
    (h : mkSoftParticle piV pos celli d U rhos tag cpu ty = some q) :
    q.positionOld = Vec3.zero ∧ q.UOld = Vec3.zero ∧
    q.n0 = 0 ∧ q.sumDeltaFb = Vec3.zero := by
  unfold mkSoftParticle at h
  split at h
  · exact Option.noConfusion h
  · injection h with h2
    rw [← h2]
    exact ⟨rfl, rfl, rfl, rfl⟩

/-- Witness for claim C7 at concrete inputs. -/
theorem mkSoftParticle_zero_history_witness :
    sampleConstructed.positionOld = Vec3.zero ∧
    sampleConstructed.UOld = Vec3.zero ∧
    sampleConstructed.n0 = 0 ∧
    sampleConstructed.sumDeltaFb = Vec3.zero :=
  mkSoftParticle_zero_history 6 Vec3.zero 0 1 ⟨1, 0, 0⟩ 1 7 0 1
    sampleConstructed (by norm_num [mkSoftParticle, sampleConstructed])

/-- Claim C8: for a non-migrating particle confined to one partition,
the sum of the committed partial displacements over all face-crossing
iterations equals the requested full-step displacement, the final
trackFraction equals 1, the bookkeeping fields positionOld and UOld
are updated from the start-of-step state, and a zero-length requested
displacement leaves the position unchanged (a no-op that still updates
the bookkeeping). -/
theorem move_step_complete (p : SoftParticle) (disp : Vec3) (hits : List ℚ) :
    vecSum (move p disp hits).committed = disp ∧
    (move p disp hits).trackFraction = 1 ∧
    (move p disp hits).particle.positionOld = p.position ∧
    (move p disp hits).particle.UOld = p.U ∧
    (disp = Vec3.zero → (move p disp hits).particle.position = p.position) := by
  obtain ⟨h1, h2⟩ := moveLoop_spec disp hits 0
  have hc : (move p disp hits).committed = (moveLoop disp hits 0).1 := rfl
  have ht : (move p disp hits).trackFraction = (moveLoop disp hits 0).2 := rfl
  have hpos : (move p disp hits).particle.position
      = p.position + vecSum (moveLoop disp hits 0).1 := rfl
  have hpOld : (move p disp hits).particle.positionOld = p.position := rfl
  have hUOld : (move p disp hits).particle.UOld = p.U := rfl
  have hsum : vecSum (move p disp hits).committed = disp := by
    rw [hc, h1, show (1 : ℚ) - 0 = 1 from by norm_num, scale_one]
  refine ⟨hsum, by rw [ht]; exact h2, hpOld, hUOld, ?_⟩
  intro hz
  rw [hpos, h1, hz, show (1 : ℚ) - 0 = 1 from by norm_num, scale_one, Vec3.add_zero]

/-- Witness for claim C8: a zero displacement with one face hit at
fraction one half is a no-op that still updates the bookkeeping. -/
theorem move_step_complete_witness :
    vecSum (move sampleParticle Vec3.zero [1 / 2]).committed = Vec3.zero ∧
    (move sampleParticle Vec3.zero [1 / 2]).trackFraction = 1 ∧
    (move sampleParticle Vec3.zero [1 / 2]).particle.positionOld
      = sampleParticle.position ∧
    (move sampleParticle Vec3.zero [1 / 2]).particle.UOld = sampleParticle.U ∧
    (move sampleParticle Vec3.zero [1 / 2]).particle.position
      = sampleParticle.position := by
  obtain ⟨h1, h2, h3, h4, h5⟩ := move_step_complete sampleParticle Vec3.zero [1 / 2]
  exact ⟨h1, h2, h3, h4, h5 rfl⟩

/-- Claim C9: `clone` returns a particle whose every field equals the
corresponding field of the original, and (the embedding being pure)
the original is left unchanged. -/
theorem clone_preserves_fields (p : SoftParticle) :
    (clone p).d = p.d ∧ (clone p).mass = p.mass ∧ (clone p).U = p.U ∧
    (clone p).moveU = p.moveU ∧ (clone p).ensembleU = p.ensembleU ∧
    (clone p).positionOld = p.positionOld ∧ (clone p).UOld = p.UOld ∧
    (clone p).tag = p.tag ∧ (clone p).lmpCpuId = p.lmpCpuId ∧
    (clone p).type = p.type ∧ (clone p).density = p.density ∧
    (clone p).n0 = p.n0 ∧ (clone p).sumDeltaFb = p.sumDeltaFb ∧
    clone p = p :=
  ⟨rfl, rfl, rfl, rfl, rfl, rfl, rfl, rfl, rfl, rfl, rfl, rfl, rfl, rfl⟩

/-- Claim C10: each mutable accessor, used as a setter, stores the
assigned value — with no validity check, so also any non-positive
value — in its one field and leaves every other field unchanged.  For
`d()` this is spelled out field by field; each remaining accessor
satisfies the same single-field frame property, stated as a record
update. -/
theorem setters_frame (p : SoftParticle) (v : ℚ) (w : Vec3) (k : ℤ) :
    (setD p v).d = v ∧
    (setD p v).position = p.position ∧ (setD p v).mass = p.mass ∧
    (setD p v).U = p.U ∧ (setD p v).moveU = p.moveU ∧
    (setD p v).ensembleU = p.ensembleU ∧
    (setD p v).positionOld = p.positionOld ∧ (setD p v).UOld = p.UOld ∧
    (setD p v).tag = p.tag ∧ (setD p v).lmpCpuId = p.lmpCpuId ∧
    (setD p v).type = p.type ∧ (setD p v).density = p.density ∧
    (setD p v).n0 = p.n0 ∧ (setD p v).sumDeltaFb = p.sumDeltaFb ∧
    setM p v = { p with mass := v } ∧
    setU p w = { p with U := w } ∧
    setMoveU p w = { p with moveU := w } ∧
    setEnsembleU p w = { p with ensembleU := w } ∧
    setPositionOld p w = { p with positionOld := w } ∧
    setUOld p w = { p with UOld := w } ∧
    setPtag p k = { p with tag := k } ∧
    setPLmpCpuId p k = { p with lmpCpuId := k } ∧
    setPtype p k = { p with type := k } ∧
    setN0 p v = { p with n0 := v } ∧
    setSumDeltaFb p w = { p with sumDeltaFb := w } :=
  ⟨rfl, rfl, rfl, rfl, rfl, rfl, rfl, rfl, rfl, rfl, rfl, rfl, rfl, rfl,
   rfl, rfl, rfl, rfl, rfl, rfl, rfl, rfl, rfl, rfl, rfl⟩

end SediFoam
